import Mathlib

/-!
Verification development for the FOC motor-control core:
the trigonometric / frame-transform engine (`MPC_math.c`) and the
PWM & current-feedback component (`pwm_curr_fdbk.c`).

Conventions of the embedding:
* C `int`/`short` arithmetic is embedded in `Int`; C integer division
  truncates toward zero, so `/` on signed operands is `Int.tdiv`.
* Assignments to `uint16_t` fields wrap, embedded as `Int.emod _ 65536`.
* The arithmetic right shift `>> 15` of a (two's-complement) signed value
  is `Int.fdiv _ 32768`.
* Signed-overflow-free behaviour is modelled exactly; theorems that need
  machine ranges carry explicit range hypotheses.
-/

namespace FOC

/-! ## Trig engine (`MPC_math.c`) -/

/-- Embedding of `limitTheta` (MPC_math.c lines 15-21).  C division of
`short` values truncates toward zero, hence `Int.tdiv`. -/
def limitTheta (theta : Int) : Int :=
  if theta < 0 then
    (360 + theta) - 360 * (1 + theta.tdiv 360)
  else
    theta - 360 * (theta.tdiv 360)

/-- The six global fixed-point trig values `sin000,...,cos240`
(MPC_math.c line 6) written by `computeSinCos` and read by
`parkTransform`, threaded explicitly as a value. -/
structure TrigState where
  sin000 : Int
  sin120 : Int
  sin240 : Int
  cos000 : Int
  cos120 : Int
  cos240 : Int

/-- Modelled from the spec: the rotating-frame vector type `qd_t`
(declared in `mc_type.h`, which is not part of the sources); the spec
describes it as a two-axis fixed-point quantity, modelled with integer
components. -/
structure qd_t where
  d : Int
  q : Int

/-- Embedding of `parkTransform` (MPC_math.c lines 76-79):
`d = (sin000*a + sin240*b + sin120*c)*1000/768`,
`q = (cos000*a + cos240*b + cos120*c)*1000/768`,
with C truncating division. -/
def parkTransform (st : TrigState) (a b c : Int) : qd_t :=
  { d := ((st.sin000 * a + st.sin240 * b + st.sin120 * c) * 1000).tdiv 768
    q := ((st.cos000 * a + st.cos240 * b + st.cos120 * c) * 1000).tdiv 768 }

/-! ## Claim C1: angle normalization -/

/-- C1: the claim says `limitTheta` always lands in `[0,360)` and is
360-periodic, reducing negatives by floor division.  The code instead
reduces negatives toward zero: `limitTheta (-30) = -30`, which is not in
`[0,360)`, and differs from `limitTheta (-30 + 360) = 330`.  This theorem
evaluates the code at the failing input. -/
theorem limitTheta_neg30_is_negative :
    limitTheta (-30) = -30 ∧
    ¬ (0 ≤ limitTheta (-30) ∧ limitTheta (-30) < 360) ∧
    limitTheta (-30 + 360 * 1) = 330 ∧
    limitTheta (-30) ≠ limitTheta (-30 + 360 * 1) := by
  decide

/-! ## Claim C9: Park transform formula -/

/-- C9: for all inputs `a b c`, `parkTransform` computes
`d = (sin000*a + sin240*b + sin120*c)*1000/768` and
`q = (cos000*a + cos240*b + cos120*c)*1000/768` in integer arithmetic
(truncating division), and the constant `1000/768` realizes the
amplitude-invariant scale `(2/3)*(1/512)` rescaled by `1000`. -/
theorem parkTransform_formula (st : TrigState) (a b c : Int) :
    (parkTransform st a b c).d
      = ((st.sin000 * a + st.sin240 * b + st.sin120 * c) * 1000).tdiv 768 ∧
    (parkTransform st a b c).q
      = ((st.cos000 * a + st.cos240 * b + st.cos120 * c) * 1000).tdiv 768 ∧
    (1000 : ℚ) / 768 = (2 / 3) * (1 / 512) * 1000 := by
  refine ⟨rfl, rfl, by norm_num⟩

/-! ## PWM & current feedback (`pwm_curr_fdbk.c`) data model -/

/-- Outcome of dispatching through a capability pointer: either the call
happens (with its value), or the pointer was null and the call is an
undefined null-pointer dereference. -/
inductive CallOutcome (α : Type) where
  | ok (val : α)
  | nullPtrDeref
deriving DecidableEq

/-- Modelled from the spec: the fault code `MC_NO_FAULTS` ("no fault"
code, declared in `mc_type.h`, which is not part of the sources). -/
def MC_NO_FAULTS : Int := 0

/-- Modelled from the spec: the sector identifiers `SECTOR_1` ..
`SECTOR_6` (declared in `mc_type.h`, which is not part of the sources);
the spec's sector table uses the identifiers 1..6. -/
def SECTOR_1 : Nat := 1

/-- Sector identifier 2 (see `SECTOR_1`). -/
def SECTOR_2 : Nat := 2

/-- Sector identifier 3 (see `SECTOR_1`). -/
def SECTOR_3 : Nat := 3

/-- Sector identifier 4 (see `SECTOR_1`). -/
def SECTOR_4 : Nat := 4

/-- Sector identifier 5 (see `SECTOR_1`). -/
def SECTOR_5 : Nat := 5

/-- Sector identifier 6 (see `SECTOR_1`). -/
def SECTOR_6 : Nat := 6

/-- The stationary-frame vector type `alphabeta_t`. -/
structure alphabeta_t where
  alpha : Int
  beta : Int

/-- The PWMC handle (`PWMC_Handle_t`): the fields of the central mutable
record that the functions of `pwm_curr_fdbk.c` read or write.  Capability
pointers are modelled by whether they are bound; the two value-returning
capabilities carry the value the bound implementation would return
(`none` models a null pointer). -/
structure PWMC_Handle where
  hT_Sqrt3 : Int
  PWMperiod : Int
  Sector : Nat
  lowDuty : Int
  midDuty : Int
  highDuty : Int
  CntPhA : Int
  CntPhB : Int
  CntPhC : Int
  DTTest : Int
  DTCompCnt : Int
  Ia : Int
  Ib : Int
  Ic : Int
  IaEst : Int
  IbEst : Int
  IcEst : Int
  LPFIdBuf : Int
  LPFIqBuf : Int
  LPFIqd_const : Int
  OffCalibrWaitTicks : Nat
  OffCalibrWaitTimeCounter : Nat
  DPWM_Mode : Bool
  TurnOnLowSidesAction : Bool
  AlignFlag : Int
  pFctGetPhaseCurrents : Bool
  pFctSetADCSampPointSectX : Option Int
  pFctIsOverCurrentOccurred : Option Int
  pFctOCPSetReferenceVoltage : Bool
  pFctRLDetectionModeEnable : Bool
  pFctSwitchOffPwm : Bool
  pFctCurrReadingCalib : Bool

/-! ## Claim C10: PWMC_Clear frame -/

/-- Embedding of `PWMC_Clear` (pwm_curr_fdbk.c lines 74-92): zeroes the
five estimator fields and nothing else. -/
def PWMC_Clear (h : PWMC_Handle) : PWMC_Handle :=
  { h with IaEst := 0, IbEst := 0, IcEst := 0, LPFIdBuf := 0, LPFIqBuf := 0 }

/-- C10: `PWMC_Clear` sets exactly `IaEst`, `IbEst`, `IcEst`, `LPFIdBuf`
and `LPFIqBuf` to zero and leaves every other field of the handle
unchanged. -/
theorem PWMC_Clear_frame (h : PWMC_Handle) :
    (PWMC_Clear h).IaEst = 0 ∧ (PWMC_Clear h).IbEst = 0 ∧
    (PWMC_Clear h).IcEst = 0 ∧ (PWMC_Clear h).LPFIdBuf = 0 ∧
    (PWMC_Clear h).LPFIqBuf = 0 ∧
    (PWMC_Clear h).hT_Sqrt3 = h.hT_Sqrt3 ∧
    (PWMC_Clear h).PWMperiod = h.PWMperiod ∧
    (PWMC_Clear h).Sector = h.Sector ∧
    (PWMC_Clear h).lowDuty = h.lowDuty ∧
    (PWMC_Clear h).midDuty = h.midDuty ∧
    (PWMC_Clear h).highDuty = h.highDuty ∧
    (PWMC_Clear h).CntPhA = h.CntPhA ∧
    (PWMC_Clear h).CntPhB = h.CntPhB ∧
    (PWMC_Clear h).CntPhC = h.CntPhC ∧
    (PWMC_Clear h).DTTest = h.DTTest ∧
    (PWMC_Clear h).DTCompCnt = h.DTCompCnt ∧
    (PWMC_Clear h).Ia = h.Ia ∧
    (PWMC_Clear h).Ib = h.Ib ∧
    (PWMC_Clear h).Ic = h.Ic ∧
    (PWMC_Clear h).LPFIqd_const = h.LPFIqd_const ∧
    (PWMC_Clear h).OffCalibrWaitTicks = h.OffCalibrWaitTicks ∧
    (PWMC_Clear h).OffCalibrWaitTimeCounter = h.OffCalibrWaitTimeCounter ∧
    (PWMC_Clear h).DPWM_Mode = h.DPWM_Mode ∧
    (PWMC_Clear h).TurnOnLowSidesAction = h.TurnOnLowSidesAction ∧
    (PWMC_Clear h).AlignFlag = h.AlignFlag ∧
    (PWMC_Clear h).pFctGetPhaseCurrents = h.pFctGetPhaseCurrents ∧
    (PWMC_Clear h).pFctSetADCSampPointSectX = h.pFctSetADCSampPointSectX ∧
    (PWMC_Clear h).pFctIsOverCurrentOccurred = h.pFctIsOverCurrentOccurred ∧
    (PWMC_Clear h).pFctOCPSetReferenceVoltage = h.pFctOCPSetReferenceVoltage ∧
    (PWMC_Clear h).pFctRLDetectionModeEnable = h.pFctRLDetectionModeEnable ∧
    (PWMC_Clear h).pFctSwitchOffPwm = h.pFctSwitchOffPwm ∧
    (PWMC_Clear h).pFctCurrReadingCalib = h.pFctCurrReadingCalib := by
  repeat constructor

/-! ## SVPWM duty engine (`PWMC_SetPhaseVoltage`, pwm_curr_fdbk.c lines 202-343) -/

/-- The auxiliary projection `wUAlpha = Valfa_beta.alpha * hT_Sqrt3`
(line 221). -/
def wUAlphaOf (h : PWMC_Handle) (v : alphabeta_t) : Int :=
  v.alpha * h.hT_Sqrt3

/-- The auxiliary projection `wUBeta = -(Valfa_beta.beta * PWMperiod) * 2`
(line 222). -/
def wUBetaOf (h : PWMC_Handle) (v : alphabeta_t) : Int :=
  -(v.beta * h.PWMperiod) * 2

/-- The auxiliary projection `wX = wUBeta` (line 224). -/
def wXOf (h : PWMC_Handle) (v : alphabeta_t) : Int :=
  wUBetaOf h v

/-- The auxiliary projection `wY = (wUBeta + wUAlpha) / 2` (line 225). -/
def wYOf (h : PWMC_Handle) (v : alphabeta_t) : Int :=
  (wUBetaOf h v + wUAlphaOf h v).tdiv 2

/-- The auxiliary projection `wZ = (wUBeta - wUAlpha) / 2` (line 226). -/
def wZOf (h : PWMC_Handle) (v : alphabeta_t) : Int :=
  (wUBetaOf h v - wUAlphaOf h v).tdiv 2

/-- The sector selection of `PWMC_SetPhaseVoltage` (the if/else chain of
lines 229-302, sector assignments only). -/
def sectorCalc (wX wY wZ : Int) : Nat :=
  if wY < 0 then
    if wZ < 0 then SECTOR_5
    else if wX ≤ 0 then SECTOR_4
    else SECTOR_3
  else
    if 0 ≤ wZ then SECTOR_2
    else if wX ≤ 0 then SECTOR_6
    else SECTOR_1

/-- The per-sector duty timings `(wTimePhA, wTimePhB, wTimePhC)` of
`PWMC_SetPhaseVoltage` (the if/else chain of lines 229-302, timing
arithmetic only; same branch structure as `sectorCalc`). -/
def svpwmTimes (period wX wY wZ : Int) : Int × Int × Int :=
  if wY < 0 then
    if wZ < 0 then
      let tA := period.tdiv 4 + (wY - wZ).tdiv 262144
      (tA, tA + wZ.tdiv 131072, tA - wY.tdiv 131072)
    else if wX ≤ 0 then
      let tA := period.tdiv 4 + (wX - wZ).tdiv 262144
      let tB := tA + wZ.tdiv 131072
      (tA, tB, tB - wX.tdiv 131072)
    else
      let tA := period.tdiv 4 + (wY - wX).tdiv 262144
      let tC := tA - wY.tdiv 131072
      (tA, tC + wX.tdiv 131072, tC)
  else
    if 0 ≤ wZ then
      let tA := period.tdiv 4 + (wY - wZ).tdiv 262144
      (tA, tA + wZ.tdiv 131072, tA - wY.tdiv 131072)
    else if wX ≤ 0 then
      let tA := period.tdiv 4 + (wY - wX).tdiv 262144
      let tC := tA - wY.tdiv 131072
      (tA, tC + wX.tdiv 131072, tC)
    else
      let tA := period.tdiv 4 + (wX - wZ).tdiv 262144
      let tB := tA + wZ.tdiv 131072
      (tA, tB, tB - wX.tdiv 131072)

/-- The per-sector assignment of the timings into the
`lowDuty`/`midDuty`/`highDuty` slots (lines 238-240, 250-252, 261-263,
275-277, 287-289, 298-300), returned as `(low, mid, high)`. -/
def dutySlots (sector : Nat) (tA tB tC : Int) : Int × Int × Int :=
  if sector = SECTOR_5 then (tC, tA, tB)
  else if sector = SECTOR_4 then (tC, tB, tA)
  else if sector = SECTOR_3 then (tB, tC, tA)
  else if sector = SECTOR_2 then (tB, tA, tC)
  else if sector = SECTOR_6 then (tA, tC, tB)
  else (tA, tB, tC)

/-- Embedding of `PWMC_SetPhaseVoltage` (pwm_curr_fdbk.c lines 202-343):
computes the auxiliary projections, selects the sector, computes and
assigns the duty timings, clamps the per-phase counters at 0 (with the
`uint16_t` cast), applies dead-time compensation when `DTTest == 1`, and
dispatches the sampling-point capability (whose `uint16_t` return value
is the function's return value). -/
def PWMC_SetPhaseVoltage (h : PWMC_Handle) (v : alphabeta_t) :
    PWMC_Handle × CallOutcome Int :=
  let wX := wXOf h v
  let wY := wYOf h v
  let wZ := wZOf h v
  let sector := sectorCalc wX wY wZ
  let t := svpwmTimes h.PWMperiod wX wY wZ
  let slots := dutySlots sector t.1 t.2.1 t.2.2
  let cntA0 := (max t.1 0) % 65536
  let cntB0 := (max t.2.1 0) % 65536
  let cntC0 := (max t.2.2 0) % 65536
  let cntA := if h.DTTest = 1 then
      (if 0 < h.Ia then cntA0 + h.DTCompCnt else cntA0 - h.DTCompCnt) % 65536
    else cntA0
  let cntB := if h.DTTest = 1 then
      (if 0 < h.Ib then cntB0 + h.DTCompCnt else cntB0 - h.DTCompCnt) % 65536
    else cntB0
  let cntC := if h.DTTest = 1 then
      (if 0 < h.Ic then cntC0 + h.DTCompCnt else cntC0 - h.DTCompCnt) % 65536
    else cntC0
  let outcome : CallOutcome Int :=
    match h.pFctSetADCSampPointSectX with
    | some r => CallOutcome.ok r
    | none => CallOutcome.nullPtrDeref
  ({ h with Sector := sector
            lowDuty := slots.1 % 65536
            midDuty := slots.2.1 % 65536
            highDuty := slots.2.2 % 65536
            CntPhA := cntA
            CntPhB := cntB
            CntPhC := cntC }, outcome)

/-- A concrete handle configuration used by the concrete-input theorems:
`PWMperiod = 4096` and `hT_Sqrt3 = 7094` (an integer approximation of
`sqrt(3) * 4096`), everything else idle, all capabilities bound. -/
def hBase : PWMC_Handle :=
  { hT_Sqrt3 := 7094, PWMperiod := 4096, Sector := 0, lowDuty := 0,
    midDuty := 0, highDuty := 0, CntPhA := 0, CntPhB := 0, CntPhC := 0,
    DTTest := 0, DTCompCnt := 0, Ia := 0, Ib := 0, Ic := 0, IaEst := 0,
    IbEst := 0, IcEst := 0, LPFIdBuf := 0, LPFIqBuf := 0,
    LPFIqd_const := 0, OffCalibrWaitTicks := 0,
    OffCalibrWaitTimeCounter := 0, DPWM_Mode := false,
    TurnOnLowSidesAction := false, AlignFlag := 0,
    pFctGetPhaseCurrents := true, pFctSetADCSampPointSectX := some 0,
    pFctIsOverCurrentOccurred := some 0,
    pFctOCPSetReferenceVoltage := true, pFctRLDetectionModeEnable := true,
    pFctSwitchOffPwm := true, pFctCurrReadingCalib := true }

/-! ## Claim C2: sector selection is total, exclusive, and follows the
sign tests -/

/-- C2: for every input voltage vector, the sector selected by
`PWMC_SetPhaseVoltage` is one of 1..6, and each sector value is selected
exactly when its sign tests on the auxiliary projections `X`, `Y`, `Z`
hold (the six iff-characterizations make the selection total and mutually
exclusive). -/
theorem setPhaseVoltage_sector_selection (h : PWMC_Handle) (v : alphabeta_t) :
    (1 ≤ ((PWMC_SetPhaseVoltage h v).1).Sector ∧
      ((PWMC_SetPhaseVoltage h v).1).Sector ≤ 6) ∧
    (((PWMC_SetPhaseVoltage h v).1).Sector = 5 ↔
      wYOf h v < 0 ∧ wZOf h v < 0) ∧
    (((PWMC_SetPhaseVoltage h v).1).Sector = 4 ↔
      wYOf h v < 0 ∧ 0 ≤ wZOf h v ∧ wXOf h v ≤ 0) ∧
    (((PWMC_SetPhaseVoltage h v).1).Sector = 3 ↔
      wYOf h v < 0 ∧ 0 ≤ wZOf h v ∧ 0 < wXOf h v) ∧
    (((PWMC_SetPhaseVoltage h v).1).Sector = 2 ↔
      0 ≤ wYOf h v ∧ 0 ≤ wZOf h v) ∧
    (((PWMC_SetPhaseVoltage h v).1).Sector = 6 ↔
      0 ≤ wYOf h v ∧ wZOf h v < 0 ∧ wXOf h v ≤ 0) ∧
    (((PWMC_SetPhaseVoltage h v).1).Sector = 1 ↔
      0 ≤ wYOf h v ∧ wZOf h v < 0 ∧ 0 < wXOf h v) := by
  have hs : ((PWMC_SetPhaseVoltage h v).1).Sector
      = sectorCalc (wXOf h v) (wYOf h v) (wZOf h v) := rfl
  rw [hs]
  unfold sectorCalc SECTOR_1 SECTOR_2 SECTOR_3 SECTOR_4 SECTOR_5 SECTOR_6
  split_ifs <;> omega

/-! ## Claim C3: the auxiliary projection formulas -/

/-- C3 counterexample: the claim states `X = Ubeta * 2` (with
`Ubeta = -Vbeta*period*2`); the code computes `wX = wUBeta`.  At
`alpha = 0`, `beta = 1`, `period = 4096` the code's `wX` is `-8192`
while the claim's conjunction of projection equations demands `-16384`,
so the claim as stated is false. -/
theorem projections_claim_false_at_beta_one :
    ¬ (wUAlphaOf hBase ⟨0, 1⟩ = (0 : Int) * hBase.hT_Sqrt3 ∧
       wUBetaOf hBase ⟨0, 1⟩ = -((1 : Int) * hBase.PWMperiod) * 2 ∧
       wXOf hBase ⟨0, 1⟩ = wUBetaOf hBase ⟨0, 1⟩ * 2 ∧
       wYOf hBase ⟨0, 1⟩
         = (wUBetaOf hBase ⟨0, 1⟩ + wUAlphaOf hBase ⟨0, 1⟩).tdiv 2 ∧
       wZOf hBase ⟨0, 1⟩
         = (wUBetaOf hBase ⟨0, 1⟩ - wUAlphaOf hBase ⟨0, 1⟩).tdiv 2) := by
  decide

/-- C3 (amended): the auxiliary projections of `PWMC_SetPhaseVoltage`
are `Ualpha = Valpha * sqrt3Const`, `Ubeta = -Vbeta * period * 2`,
`X = Ubeta` (not `Ubeta * 2`), `Y = (Ubeta + Ualpha)/2` and
`Z = (Ubeta - Ualpha)/2`, with C truncating division. -/
theorem projections_formulas (h : PWMC_Handle) (v : alphabeta_t) :
    wUAlphaOf h v = v.alpha * h.hT_Sqrt3 ∧
    wUBetaOf h v = -(v.beta * h.PWMperiod) * 2 ∧
    wXOf h v = wUBetaOf h v ∧
    wYOf h v = (wUBetaOf h v + wUAlphaOf h v).tdiv 2 ∧
    wZOf h v = (wUBetaOf h v - wUAlphaOf h v).tdiv 2 :=
  ⟨rfl, rfl, rfl, rfl, rfl⟩

/-! ## Low-pass filter (`PWMC_LowPassFilter`, pwm_curr_fdbk.c lines
453-477) -/

/-- The arithmetic right shift `>> 15` of a signed 32-bit value: floor
division by `2^15 = 32768`. -/
def shr15 (x : Int) : Int := x.fdiv 32768

/-- Embedding of `PWMC_LowPassFilter` (pwm_curr_fdbk.c lines 453-477):
`*out_buf = *out_buf + (in - (*out_buf >> 15)) * t; x = *out_buf >> 15`.
Returns `(new accumulator, returned output x)`. -/
def PWMC_LowPassFilter (inp buf t : Int) : Int × Int :=
  let buf1 := buf + (inp - shr15 buf) * t
  (buf1, shr15 buf1)

/-- Iterating `PWMC_LowPassFilter` over a sequence of inputs, returning
the final accumulator and the sequence of outputs. -/
def lpfRun (buf t : Int) : List Int → Int × List Int
  | [] => (buf, [])
  | i :: is =>
      let s := PWMC_LowPassFilter i buf t
      let r := lpfRun s.1 t is
      (r.1, s.2 :: r.2)

/-- C8: the filter updates the accumulator exactly as
`acc += (in - (acc >> 15)) * t` and returns `acc >> 15`; and with
`t = 0` neither the accumulator nor the output ever changes from its
initial value, for every sequence of inputs. -/
theorem lowPassFilter_update_and_zero_const :
    (∀ inp buf t : Int,
      PWMC_LowPassFilter inp buf t
        = (buf + (inp - shr15 buf) * t,
           shr15 (buf + (inp - shr15 buf) * t))) ∧
    (∀ (buf : Int) (inputs : List Int),
      (lpfRun buf 0 inputs).1 = buf ∧
      (lpfRun buf 0 inputs).2 = inputs.map fun _ => shr15 buf) := by
  refine ⟨fun inp buf t => rfl, fun buf inputs => ?_⟩
  induction inputs with
  | nil => exact ⟨rfl, rfl⟩
  | cons i is ih =>
      have hstep : PWMC_LowPassFilter i buf 0 = (buf, shr15 buf) := by
        simp [PWMC_LowPassFilter]
      simp only [lpfRun, hstep, List.map_cons]
      exact ⟨ih.1, by rw [ih.2]⟩

/-! ## Offset-calibration state machine (`PWMC_CurrentReadingCalibr`,
pwm_curr_fdbk.c lines 399-444) -/

/-- The two externally driven calibration actions `CRC_START` and
`CRC_EXEC`. -/
inductive CRCAction where
  | start
  | exec
deriving DecidableEq

/-- Embedding of `PWMC_CurrentReadingCalibr` (pwm_curr_fdbk.c lines
399-444).  The result is `(handle', retVal, reads, pwmOffs)` where
`reads` counts invocations of the offset-read capability
(`pFctCurrReadingCalib`) and `pwmOffs` counts invocations of
`PWMC_SwitchOffPWM` during the call. -/
def PWMC_CurrentReadingCalibr (h : PWMC_Handle) (action : CRCAction) :
    PWMC_Handle × Bool × Nat × Nat :=
  match action with
  | CRCAction.start =>
      let h1 := { h with OffCalibrWaitTimeCounter := h.OffCalibrWaitTicks }
      if h.OffCalibrWaitTicks = 0 then (h1, true, 1, 1)
      else (h1, false, 0, 1)
  | CRCAction.exec =>
      if 0 < h.OffCalibrWaitTimeCounter then
        let h1 := { h with
          OffCalibrWaitTimeCounter := h.OffCalibrWaitTimeCounter - 1 }
        if h1.OffCalibrWaitTimeCounter = 0 then (h1, true, 1, 0)
        else (h1, false, 0, 0)
      else (h, true, 0, 0)

/-- Iterating `PWMC_CurrentReadingCalibr` with `CRC_EXEC` a given number
of times, returning the final handle, the list of per-call return values
and the total number of offset-read invocations. -/
def calibrExecRun (h : PWMC_Handle) : Nat → PWMC_Handle × List Bool × Nat
  | 0 => (h, [], 0)
  | Nat.succ n =>
      let s := PWMC_CurrentReadingCalibr h CRCAction.exec
      let r := calibrExecRun s.1 n
      (r.1, s.2.1 :: r.2.1, s.2.2.1 + r.2.2)

/-- One-step unfolding of `calibrExecRun`. -/
theorem calibrExecRun_succ (h : PWMC_Handle) (n : Nat) :
    calibrExecRun h (n + 1)
      = ((calibrExecRun (PWMC_CurrentReadingCalibr h CRCAction.exec).1 n).1,
         (PWMC_CurrentReadingCalibr h CRCAction.exec).2.1
           :: (calibrExecRun
                (PWMC_CurrentReadingCalibr h CRCAction.exec).1 n).2.1,
         (PWMC_CurrentReadingCalibr h CRCAction.exec).2.2.1
           + (calibrExecRun
                (PWMC_CurrentReadingCalibr h CRCAction.exec).1 n).2.2) :=
  rfl

/-- Helper: a handle whose wait counter is `c + 1` completes after
exactly `c + 1` `EXEC` calls, returning `false` on the first `c` and
`true` on the last, with exactly one offset-read invocation. -/
theorem calibrExecRun_spec (c : Nat) :
    ∀ h : PWMC_Handle, h.OffCalibrWaitTimeCounter = c + 1 →
      (calibrExecRun h (c + 1)).2.1 = List.replicate c false ++ [true] ∧
      (calibrExecRun h (c + 1)).2.2 = 1 ∧
      (calibrExecRun h (c + 1)).1.OffCalibrWaitTimeCounter = 0 := by
  induction c with
  | zero =>
      intro h hc
      have hstep : PWMC_CurrentReadingCalibr h CRCAction.exec
          = ({ h with OffCalibrWaitTimeCounter := 0 }, true, 1, 0) := by
        simp [PWMC_CurrentReadingCalibr, hc]
      rw [calibrExecRun_succ, hstep]
      exact ⟨rfl, rfl, rfl⟩
  | succ c ih =>
      intro h hc
      have hstep : PWMC_CurrentReadingCalibr h CRCAction.exec
          = ({ h with OffCalibrWaitTimeCounter := c + 1 }, false, 0, 0) := by
        simp [PWMC_CurrentReadingCalibr, hc]
      have hrest := ih { h with OffCalibrWaitTimeCounter := c + 1 } rfl
      rw [calibrExecRun_succ, hstep, List.replicate_succ, List.cons_append]
      refine ⟨?_, ?_, ?_⟩
      · show false :: (calibrExecRun
            { h with OffCalibrWaitTimeCounter := c + 1 } (c + 1)).2.1
          = false :: (List.replicate c false ++ [true])
        rw [hrest.1]
      · show 0 + (calibrExecRun
            { h with OffCalibrWaitTimeCounter := c + 1 } (c + 1)).2.2 = 1
        rw [hrest.2.1]
      · exact hrest.2.2

/-- C4: `START` with wait ticks 0 switches PWM off and completes on the
first call with exactly one offset read; `START` with wait ticks `N > 0`
returns not-complete (no read yet, PWM switched off), and the following
`N` `EXEC` calls return `false` on the first `N - 1` and `true` on the
`N`-th with exactly one offset read in total; an `EXEC` call with the
counter already at zero completes with no side effect. -/
theorem currentReadingCalibr_state_machine (h : PWMC_Handle) (N : Nat) :
    (h.OffCalibrWaitTicks = 0 →
      (PWMC_CurrentReadingCalibr h CRCAction.start).2.1 = true ∧
      (PWMC_CurrentReadingCalibr h CRCAction.start).2.2.1 = 1 ∧
      (PWMC_CurrentReadingCalibr h CRCAction.start).2.2.2 = 1) ∧
    (h.OffCalibrWaitTicks = N → 0 < N →
      (PWMC_CurrentReadingCalibr h CRCAction.start).2.1 = false ∧
      (PWMC_CurrentReadingCalibr h CRCAction.start).2.2.1 = 0 ∧
      (PWMC_CurrentReadingCalibr h CRCAction.start).2.2.2 = 1 ∧
      (calibrExecRun (PWMC_CurrentReadingCalibr h CRCAction.start).1 N).2.1
        = List.replicate (N - 1) false ++ [true] ∧
      (calibrExecRun (PWMC_CurrentReadingCalibr h CRCAction.start).1 N).2.2
        = 1) ∧
    (h.OffCalibrWaitTimeCounter = 0 →
      PWMC_CurrentReadingCalibr h CRCAction.exec = (h, true, 0, 0)) := by
  refine ⟨fun h0 => ?_, fun hN hpos => ?_, fun hc => ?_⟩
  · simp [PWMC_CurrentReadingCalibr, h0]
  · obtain ⟨c, rfl⟩ : ∃ c, N = c + 1 := ⟨N - 1, by omega⟩
    have hne : h.OffCalibrWaitTicks ≠ 0 := by omega
    have hstart : PWMC_CurrentReadingCalibr h CRCAction.start
        = ({ h with OffCalibrWaitTimeCounter := h.OffCalibrWaitTicks },
           false, 0, 1) := by
      simp [PWMC_CurrentReadingCalibr, hne]
    have hrun := calibrExecRun_spec c
      { h with OffCalibrWaitTimeCounter := h.OffCalibrWaitTicks } (by simp [hN])
    rw [hstart]
    exact ⟨rfl, rfl, rfl, by simpa using hrun.1, by simpa using hrun.2.1⟩
  · simp [PWMC_CurrentReadingCalibr, hc]

/-- C4 witness: concrete run with wait ticks `3`: `START` returns
`false`, then the three `EXEC` calls return `false, false, true` with one
offset read in total; and with ticks `0` the `START` call completes at
once. -/
theorem currentReadingCalibr_witness :
    ({ hBase with OffCalibrWaitTicks := 3 } :
        PWMC_Handle).OffCalibrWaitTicks = 3 ∧ 0 < 3 ∧
    ((PWMC_CurrentReadingCalibr { hBase with OffCalibrWaitTicks := 3 }
        CRCAction.start).2.1 = false ∧
      (PWMC_CurrentReadingCalibr { hBase with OffCalibrWaitTicks := 3 }
        CRCAction.start).2.2.1 = 0 ∧
      (PWMC_CurrentReadingCalibr { hBase with OffCalibrWaitTicks := 3 }
        CRCAction.start).2.2.2 = 1 ∧
      (calibrExecRun (PWMC_CurrentReadingCalibr
          { hBase with OffCalibrWaitTicks := 3 } CRCAction.start).1 3).2.1
        = List.replicate (3 - 1) false ++ [true] ∧
      (calibrExecRun (PWMC_CurrentReadingCalibr
          { hBase with OffCalibrWaitTicks := 3 } CRCAction.start).1 3).2.2
        = 1) := by
  refine ⟨rfl, by decide, ?_⟩
  exact (currentReadingCalibr_state_machine
    { hBase with OffCalibrWaitTicks := 3 } 3).2.1 rfl (by decide)

/-! ## Capability dispatch (C5)

The dispatchers are modelled with the `NULL_PTR_PWR_CUR_FDB` guard
compiled in (the setting most favourable to the claim): a null *handle*
is caught and degrades to a neutral result.  The individual capability
pointers, however, are called unguarded by `PWMC_GetPhaseCurrents`
(line 164), `PWMC_CheckOverCurrent` (lines 565-572) and the
sampling-point call of `PWMC_SetPhaseVoltage` (line 338); only the OCP
and R/L-detection dispatchers also test the individual pointer
(lines 587, 667, 685, 713). -/

/-- Embedding of `PWMC_GetPhaseCurrents` (pwm_curr_fdbk.c lines
154-168): null handle is a no-op; the `pFctGetPhaseCurrents` pointer is
called without a null check. -/
def PWMC_GetPhaseCurrents (ph : Option PWMC_Handle) : CallOutcome Unit :=
  match ph with
  | none => CallOutcome.ok ()
  | some h =>
      if h.pFctGetPhaseCurrents then CallOutcome.ok ()
      else CallOutcome.nullPtrDeref

/-- Embedding of `PWMC_CheckOverCurrent` (pwm_curr_fdbk.c lines
565-572): null handle returns `MC_NO_FAULTS`; the
`pFctIsOverCurrentOccurred` pointer is called without a null check. -/
def PWMC_CheckOverCurrent (ph : Option PWMC_Handle) : CallOutcome Int :=
  match ph with
  | none => CallOutcome.ok MC_NO_FAULTS
  | some h =>
      match h.pFctIsOverCurrentOccurred with
      | some r => CallOutcome.ok r
      | none => CallOutcome.nullPtrDeref

/-- Embedding of `PWMC_OCPSetReferenceVoltage` (pwm_curr_fdbk.c lines
584-598): both the handle and the individual pointer are null-checked;
the result records whether the capability was invoked. -/
def PWMC_OCPSetReferenceVoltage (ph : Option PWMC_Handle) :
    CallOutcome Bool :=
  match ph with
  | none => CallOutcome.ok false
  | some h =>
      if h.pFctOCPSetReferenceVoltage then CallOutcome.ok true
      else CallOutcome.ok false

/-- Embedding of `PWMC_RLDetectionModeEnable` (pwm_curr_fdbk.c lines
664-678): both the handle and the individual pointer are null-checked;
the result records whether the capability was invoked. -/
def PWMC_RLDetectionModeEnable (ph : Option PWMC_Handle) :
    CallOutcome Bool :=
  match ph with
  | none => CallOutcome.ok false
  | some h =>
      if h.pFctRLDetectionModeEnable then CallOutcome.ok true
      else CallOutcome.ok false

/-- C5 counterexample: with a non-null handle whose
`pFctGetPhaseCurrents` operation is missing, `PWMC_GetPhaseCurrents`
performs an undefined null-pointer call rather than yielding a neutral
result; likewise `PWMC_CheckOverCurrent` and the sampling-point dispatch
inside `PWMC_SetPhaseVoltage`. -/
theorem dispatch_missing_op_derefs_null :
    PWMC_GetPhaseCurrents
        (some { hBase with pFctGetPhaseCurrents := false })
      = CallOutcome.nullPtrDeref ∧
    PWMC_CheckOverCurrent
        (some { hBase with pFctIsOverCurrentOccurred := none })
      = CallOutcome.nullPtrDeref ∧
    (PWMC_SetPhaseVoltage
        { hBase with pFctSetADCSampPointSectX := none } ⟨0, 0⟩).2
      = CallOutcome.nullPtrDeref := by
  exact ⟨rfl, rfl, rfl⟩

/-- C5 (amended): a null *handle* degrades to a defined neutral result
(no-op for `PWMC_GetPhaseCurrents`, the no-fault code for
`PWMC_CheckOverCurrent`), and the dispatchers that do test the
individual pointer (`PWMC_OCPSetReferenceVoltage`,
`PWMC_RLDetectionModeEnable`) degrade to a no-op when the operation is
missing; but in `PWMC_GetPhaseCurrents`, `PWMC_CheckOverCurrent` and the
sampling-point call of `PWMC_SetPhaseVoltage` a missing individual
operation is an undefined null-pointer call. -/
theorem dispatch_guards (h : PWMC_Handle) (v : alphabeta_t) :
    PWMC_GetPhaseCurrents none = CallOutcome.ok () ∧
    PWMC_CheckOverCurrent none = CallOutcome.ok MC_NO_FAULTS ∧
    (h.pFctOCPSetReferenceVoltage = false →
      PWMC_OCPSetReferenceVoltage (some h) = CallOutcome.ok false) ∧
    (h.pFctRLDetectionModeEnable = false →
      PWMC_RLDetectionModeEnable (some h) = CallOutcome.ok false) ∧
    (h.pFctGetPhaseCurrents = false →
      PWMC_GetPhaseCurrents (some h) = CallOutcome.nullPtrDeref) ∧
    (h.pFctIsOverCurrentOccurred = none →
      PWMC_CheckOverCurrent (some h) = CallOutcome.nullPtrDeref) ∧
    (h.pFctSetADCSampPointSectX = none →
      (PWMC_SetPhaseVoltage h v).2 = CallOutcome.nullPtrDeref) := by
  refine ⟨rfl, rfl, fun h1 => ?_, fun h2 => ?_, fun h3 => ?_,
    fun h4 => ?_, fun h5 => ?_⟩
  · simp [PWMC_OCPSetReferenceVoltage, h1]
  · simp [PWMC_RLDetectionModeEnable, h2]
  · simp [PWMC_GetPhaseCurrents, h3]
  · simp [PWMC_CheckOverCurrent, h4]
  · simp [PWMC_SetPhaseVoltage, h5]

/-- A concrete handle with every claim-relevant capability unbound. -/
def hUnbound : PWMC_Handle :=
  { hBase with
      pFctOCPSetReferenceVoltage := false
      pFctRLDetectionModeEnable := false
      pFctGetPhaseCurrents := false
      pFctIsOverCurrentOccurred := none
      pFctSetADCSampPointSectX := none }

/-- C5 witness: the guarded and unguarded dispatch behaviours at a
concrete unbound-capability handle. -/
theorem dispatch_guards_witness :
    hUnbound.pFctGetPhaseCurrents = false ∧
    PWMC_GetPhaseCurrents (some hUnbound) = CallOutcome.nullPtrDeref ∧
    PWMC_OCPSetReferenceVoltage (some hUnbound) = CallOutcome.ok false := by
  have hd := dispatch_guards hUnbound ⟨0, 0⟩
  exact ⟨rfl, hd.2.2.2.2.1 rfl, hd.2.2.1 rfl⟩

/-! ## Claim C6: dead-time compensation -/

/-- C6: with `DTTest = 1`, each phase counter equals the counter
computed with compensation disabled (`DTTest = 0`, i.e. the 0-clamped
value) plus `DTCompCnt` when that phase's estimated current is positive
and minus `DTCompCnt` otherwise (in `uint16_t` arithmetic), applied
independently per phase; in particular, for a positive estimated current
on phase A (and no `uint16_t` overflow), the phase-A counter with
compensation enabled is strictly greater than without, by exactly
`DTCompCnt`. -/
theorem deadtime_compensation (h : PWMC_Handle) (v : alphabeta_t)
    (hdt : h.DTTest = 1) (hcc : 0 < h.DTCompCnt) :
    ((PWMC_SetPhaseVoltage h v).1.CntPhA
      = (if 0 < h.Ia
          then (PWMC_SetPhaseVoltage { h with DTTest := 0 } v).1.CntPhA
            + h.DTCompCnt
          else (PWMC_SetPhaseVoltage { h with DTTest := 0 } v).1.CntPhA
            - h.DTCompCnt) % 65536) ∧
    ((PWMC_SetPhaseVoltage h v).1.CntPhB
      = (if 0 < h.Ib
          then (PWMC_SetPhaseVoltage { h with DTTest := 0 } v).1.CntPhB
            + h.DTCompCnt
          else (PWMC_SetPhaseVoltage { h with DTTest := 0 } v).1.CntPhB
            - h.DTCompCnt) % 65536) ∧
    ((PWMC_SetPhaseVoltage h v).1.CntPhC
      = (if 0 < h.Ic
          then (PWMC_SetPhaseVoltage { h with DTTest := 0 } v).1.CntPhC
            + h.DTCompCnt
          else (PWMC_SetPhaseVoltage { h with DTTest := 0 } v).1.CntPhC
            - h.DTCompCnt) % 65536) ∧
    (0 < h.Ia →
      (PWMC_SetPhaseVoltage { h with DTTest := 0 } v).1.CntPhA
          + h.DTCompCnt ≤ 65535 →
      (PWMC_SetPhaseVoltage h v).1.CntPhA
        = (PWMC_SetPhaseVoltage { h with DTTest := 0 } v).1.CntPhA
          + h.DTCompCnt ∧
      (PWMC_SetPhaseVoltage { h with DTTest := 0 } v).1.CntPhA
        < (PWMC_SetPhaseVoltage h v).1.CntPhA) := by
  have hA0 : (PWMC_SetPhaseVoltage { h with DTTest := 0 } v).1.CntPhA
      = (max (svpwmTimes h.PWMperiod (wXOf h v) (wYOf h v) (wZOf h v)).1
          0) % 65536 := by
    simp [PWMC_SetPhaseVoltage, wXOf, wYOf, wZOf, wUAlphaOf, wUBetaOf]
  have hB0 : (PWMC_SetPhaseVoltage { h with DTTest := 0 } v).1.CntPhB
      = (max (svpwmTimes h.PWMperiod (wXOf h v) (wYOf h v) (wZOf h v)).2.1
          0) % 65536 := by
    simp [PWMC_SetPhaseVoltage, wXOf, wYOf, wZOf, wUAlphaOf, wUBetaOf]
  have hC0 : (PWMC_SetPhaseVoltage { h with DTTest := 0 } v).1.CntPhC
      = (max (svpwmTimes h.PWMperiod (wXOf h v) (wYOf h v) (wZOf h v)).2.2
          0) % 65536 := by
    simp [PWMC_SetPhaseVoltage, wXOf, wYOf, wZOf, wUAlphaOf, wUBetaOf]
  have hA1 : (PWMC_SetPhaseVoltage h v).1.CntPhA
      = (if 0 < h.Ia
          then (max (svpwmTimes h.PWMperiod (wXOf h v) (wYOf h v)
              (wZOf h v)).1 0) % 65536 + h.DTCompCnt
          else (max (svpwmTimes h.PWMperiod (wXOf h v) (wYOf h v)
              (wZOf h v)).1 0) % 65536 - h.DTCompCnt) % 65536 := by
    simp [PWMC_SetPhaseVoltage, hdt]
  have hB1 : (PWMC_SetPhaseVoltage h v).1.CntPhB
      = (if 0 < h.Ib
          then (max (svpwmTimes h.PWMperiod (wXOf h v) (wYOf h v)
              (wZOf h v)).2.1 0) % 65536 + h.DTCompCnt
          else (max (svpwmTimes h.PWMperiod (wXOf h v) (wYOf h v)
              (wZOf h v)).2.1 0) % 65536 - h.DTCompCnt) % 65536 := by
    simp [PWMC_SetPhaseVoltage, hdt]
  have hC1 : (PWMC_SetPhaseVoltage h v).1.CntPhC
      = (if 0 < h.Ic
          then (max (svpwmTimes h.PWMperiod (wXOf h v) (wYOf h v)
              (wZOf h v)).2.2 0) % 65536 + h.DTCompCnt
          else (max (svpwmTimes h.PWMperiod (wXOf h v) (wYOf h v)
              (wZOf h v)).2.2 0) % 65536 - h.DTCompCnt) % 65536 := by
    simp [PWMC_SetPhaseVoltage, hdt]
  refine ⟨by rw [hA1, hA0], by rw [hB1, hB0], by rw [hC1, hC0],
    fun hia hle => ?_⟩
  rw [hA0] at hle ⊢
  rw [hA1, if_pos hia]
  have hnn : 0 ≤ (max (svpwmTimes h.PWMperiod (wXOf h v) (wYOf h v)
      (wZOf h v)).1 0) % 65536 :=
    Int.emod_nonneg _ (by norm_num)
  rw [Int.emod_eq_of_lt (by omega) (by omega)]
  omega

/-- A concrete handle for the dead-time-compensation witness:
compensation enabled, `DTCompCnt = 10`, positive phase-A current. -/
def hDT : PWMC_Handle :=
  { hBase with
      DTTest := 1
      DTCompCnt := 10
      Ia := 5
      Ib := -3 }

/-- C6 witness: at the concrete handle `hDT` and a zero voltage vector,
the compensated phase-A counter exceeds the uncompensated one by exactly
`DTCompCnt = 10`. -/
theorem deadtime_compensation_witness :
    hDT.DTTest = 1 ∧ (0 : Int) < hDT.DTCompCnt ∧ (0 : Int) < hDT.Ia ∧
    (PWMC_SetPhaseVoltage { hDT with DTTest := 0 } ⟨0, 0⟩).1.CntPhA
        + hDT.DTCompCnt ≤ 65535 ∧
    ((PWMC_SetPhaseVoltage hDT ⟨0, 0⟩).1.CntPhA
      = (PWMC_SetPhaseVoltage { hDT with DTTest := 0 } ⟨0, 0⟩).1.CntPhA
        + hDT.DTCompCnt ∧
     (PWMC_SetPhaseVoltage { hDT with DTTest := 0 } ⟨0, 0⟩).1.CntPhA
      < (PWMC_SetPhaseVoltage hDT ⟨0, 0⟩).1.CntPhA) := by
  refine ⟨rfl, by decide, by decide, by decide, ?_⟩
  exact (deadtime_compensation hDT ⟨0, 0⟩ rfl (by decide)).2.2.2
    (by decide) (by decide)

/-! ## Claim C7: counters bounded by the PWM period -/

/-- Exact characterization of C truncating division by a positive
divisor in terms of Euclidean (floor-like) division: for a nonnegative
numerator they agree; for a negative numerator truncation negates the
quotient of the negated numerator. -/
theorem tdiv_cases (d : Int) (hd : 0 < d) (a : Int) :
    (0 ≤ a ∧ a.tdiv d = a / d) ∨ (a < 0 ∧ a.tdiv d = -(-a / d)) := by
  rcases le_or_lt 0 a with ha | ha
  · exact Or.inl ⟨ha, Int.tdiv_eq_ediv ha hd.le⟩
  · refine Or.inr ⟨ha, ?_⟩
    rw [show a.tdiv d = -((-a).tdiv d) by rw [Int.neg_tdiv, neg_neg],
        Int.tdiv_eq_ediv (by omega) hd.le]

/-- The `uint16_t` cast of the 0-clamped counter is the identity and
stays within `[0, P]` whenever the raw timing is at most `P ≤ 65535`. -/
theorem clamped_mod_bound {t P : Int} (hP : 0 < P) (hPle : P ≤ 65535)
    (ht : t ≤ P) : 0 ≤ max t 0 % 65536 ∧ max t 0 % 65536 ≤ P := by
  have h0 : (0 : Int) ≤ max t 0 := le_max_right t 0
  have h1 : max t 0 ≤ P := max_le ht hP.le
  rw [Int.emod_eq_of_lt h0 (by omega)]
  exact ⟨h0, h1⟩

/-- The three duty timings computed by `svpwmTimes` are bounded above by
the PWM period, provided the projections `U = Ualpha` and `B = Ubeta`
are bounded by `65536 * P` in magnitude (which holds for `int16` inputs
and `hT_Sqrt3 ≤ 2 * P`). -/
theorem svpwmTimes_le_period (P U B y z : Int) (hP : 0 < P)
    (hU1 : -(65536 * P) ≤ U) (hU2 : U ≤ 65536 * P)
    (hB1 : -(65536 * P) ≤ B) (hB2 : B ≤ 65536 * P)
    (hy : y = (B + U).tdiv 2) (hz : z = (B - U).tdiv 2) :
    (svpwmTimes P B y z).1 ≤ P ∧ (svpwmTimes P B y z).2.1 ≤ P ∧
      (svpwmTimes P B y z).2.2 ≤ P := by
  subst hy hz
  have hq : P.tdiv 4 = P / 4 :=
    Int.tdiv_eq_ediv hP.le (by norm_num)
  have hYc := tdiv_cases 2 (by norm_num) (B + U)
  have hZc := tdiv_cases 2 (by norm_num) (B - U)
  simp only [svpwmTimes]
  split_ifs <;> dsimp only
  · -- sector 5: Y < 0, Z < 0
    have h1c := tdiv_cases 262144 (by norm_num)
      ((B + U).tdiv 2 - (B - U).tdiv 2)
    have h4c := tdiv_cases 131072 (by norm_num) ((B - U).tdiv 2)
    have h5c := tdiv_cases 131072 (by norm_num) ((B + U).tdiv 2)
    omega
  · -- sector 4: Y < 0, Z >= 0, X <= 0
    have h2c := tdiv_cases 262144 (by norm_num) (B - (B - U).tdiv 2)
    have h4c := tdiv_cases 131072 (by norm_num) ((B - U).tdiv 2)
    have h6c := tdiv_cases 131072 (by norm_num) B
    omega
  · -- sector 3: Y < 0, Z >= 0, X > 0
    have h3c := tdiv_cases 262144 (by norm_num) ((B + U).tdiv 2 - B)
    have h5c := tdiv_cases 131072 (by norm_num) ((B + U).tdiv 2)
    have h6c := tdiv_cases 131072 (by norm_num) B
    omega
  · -- sector 2: Y >= 0, Z >= 0
    have h1c := tdiv_cases 262144 (by norm_num)
      ((B + U).tdiv 2 - (B - U).tdiv 2)
    have h4c := tdiv_cases 131072 (by norm_num) ((B - U).tdiv 2)
    have h5c := tdiv_cases 131072 (by norm_num) ((B + U).tdiv 2)
    omega
  · -- sector 6: Y >= 0, Z < 0, X <= 0
    have h3c := tdiv_cases 262144 (by norm_num) ((B + U).tdiv 2 - B)
    have h5c := tdiv_cases 131072 (by norm_num) ((B + U).tdiv 2)
    have h6c := tdiv_cases 131072 (by norm_num) B
    omega
  · -- sector 1: Y >= 0, Z < 0, X > 0
    have h2c := tdiv_cases 262144 (by norm_num) (B - (B - U).tdiv 2)
    have h4c := tdiv_cases 131072 (by norm_num) ((B - U).tdiv 2)
    have h6c := tdiv_cases 131072 (by norm_num) B
    omega

/-- A concrete handle for the C7 counterexample: dead-time compensation
enabled with a large `DTCompCnt = 4000` and a positive phase-A
current. -/
def hC7 : PWMC_Handle :=
  { hBase with
      DTTest := 1
      DTCompCnt := 4000
      Ia := 5 }

/-- C7 counterexample: with dead-time compensation enabled, the
compensated phase-A counter can exceed the PWM period: at `hC7` and a
zero voltage vector the counter is `1024 + 4000 = 5024 > 4096`, so the
claim's bound does not hold after every call. -/
theorem counters_exceed_period_with_deadtime :
    hC7.PWMperiod < (PWMC_SetPhaseVoltage hC7 ⟨0, 0⟩).1.CntPhA := by
  decide

/-- C7 (amended): with dead-time compensation disabled (`DTTest ≠ 1`),
for any voltage vector with `int16` components and a handle whose
`hT_Sqrt3` is at most `2 * PWMperiod` (the configured value is
`sqrt(3) * PWMperiod`), the three per-phase counters after
`PWMC_SetPhaseVoltage` are non-negative and bounded above by the PWM
period. -/
theorem setPhaseVoltage_counters_bounded (h : PWMC_Handle)
    (v : alphabeta_t) (hdt : h.DTTest ≠ 1)
    (hP : 0 < h.PWMperiod) (hPle : h.PWMperiod ≤ 65535)
    (hS0 : 0 ≤ h.hT_Sqrt3) (hS2 : h.hT_Sqrt3 ≤ 2 * h.PWMperiod)
    (ha1 : -32768 ≤ v.alpha) (ha2 : v.alpha ≤ 32767)
    (hb1 : -32768 ≤ v.beta) (hb2 : v.beta ≤ 32767) :
    (0 ≤ (PWMC_SetPhaseVoltage h v).1.CntPhA ∧
      (PWMC_SetPhaseVoltage h v).1.CntPhA ≤ h.PWMperiod) ∧
    (0 ≤ (PWMC_SetPhaseVoltage h v).1.CntPhB ∧
      (PWMC_SetPhaseVoltage h v).1.CntPhB ≤ h.PWMperiod) ∧
    (0 ≤ (PWMC_SetPhaseVoltage h v).1.CntPhC ∧
      (PWMC_SetPhaseVoltage h v).1.CntPhC ≤ h.PWMperiod) := by
  have hU2 : wUAlphaOf h v ≤ 65536 * h.PWMperiod := by
    have t1 : v.alpha * h.hT_Sqrt3 ≤ 32768 * h.hT_Sqrt3 :=
      mul_le_mul_of_nonneg_right (by omega) hS0
    have t2 : (32768 : Int) * h.hT_Sqrt3 ≤ 32768 * (2 * h.PWMperiod) :=
      mul_le_mul_of_nonneg_left hS2 (by norm_num)
    unfold wUAlphaOf
    linarith
  have hU1 : -(65536 * h.PWMperiod) ≤ wUAlphaOf h v := by
    have t1 : (-32768 : Int) * h.hT_Sqrt3 ≤ v.alpha * h.hT_Sqrt3 :=
      mul_le_mul_of_nonneg_right (by omega) hS0
    have t2 : (-32768 : Int) * (2 * h.PWMperiod)
        ≤ (-32768) * h.hT_Sqrt3 :=
      mul_le_mul_of_nonpos_left hS2 (by norm_num)
    unfold wUAlphaOf
    linarith
  have hB2 : wXOf h v ≤ 65536 * h.PWMperiod := by
    have t1 : (-32768 : Int) * h.PWMperiod ≤ v.beta * h.PWMperiod :=
      mul_le_mul_of_nonneg_right (by omega) hP.le
    unfold wXOf wUBetaOf
    linarith
  have hB1 : -(65536 * h.PWMperiod) ≤ wXOf h v := by
    have t1 : v.beta * h.PWMperiod ≤ 32767 * h.PWMperiod :=
      mul_le_mul_of_nonneg_right (by omega) hP.le
    unfold wXOf wUBetaOf
    linarith
  have hT := svpwmTimes_le_period h.PWMperiod (wUAlphaOf h v) (wXOf h v)
    (wYOf h v) (wZOf h v) hP hU1 hU2 hB1 hB2 rfl rfl
  have hA : (PWMC_SetPhaseVoltage h v).1.CntPhA
      = max (svpwmTimes h.PWMperiod (wXOf h v) (wYOf h v)
          (wZOf h v)).1 0 % 65536 := by
    simp [PWMC_SetPhaseVoltage, hdt]
  have hB : (PWMC_SetPhaseVoltage h v).1.CntPhB
      = max (svpwmTimes h.PWMperiod (wXOf h v) (wYOf h v)
          (wZOf h v)).2.1 0 % 65536 := by
    simp [PWMC_SetPhaseVoltage, hdt]
  have hC : (PWMC_SetPhaseVoltage h v).1.CntPhC
      = max (svpwmTimes h.PWMperiod (wXOf h v) (wYOf h v)
          (wZOf h v)).2.2 0 % 65536 := by
    simp [PWMC_SetPhaseVoltage, hdt]
  rw [hA, hB, hC]
  exact ⟨clamped_mod_bound hP hPle hT.1,
    clamped_mod_bound hP hPle hT.2.1,
    clamped_mod_bound hP hPle hT.2.2⟩

/-- C7 witness: the spec's own example input (`period = 4096`,
`alpha = 0`, `beta = -2048`) with compensation disabled yields three
counters in `[0, 4096]`. -/
theorem setPhaseVoltage_counters_bounded_witness :
    hBase.DTTest ≠ 1 ∧ (0 : Int) < hBase.PWMperiod ∧
    hBase.hT_Sqrt3 ≤ 2 * hBase.PWMperiod ∧
    ((0 ≤ (PWMC_SetPhaseVoltage hBase ⟨0, -2048⟩).1.CntPhA ∧
      (PWMC_SetPhaseVoltage hBase ⟨0, -2048⟩).1.CntPhA
        ≤ hBase.PWMperiod) ∧
    (0 ≤ (PWMC_SetPhaseVoltage hBase ⟨0, -2048⟩).1.CntPhB ∧
      (PWMC_SetPhaseVoltage hBase ⟨0, -2048⟩).1.CntPhB
        ≤ hBase.PWMperiod) ∧
    (0 ≤ (PWMC_SetPhaseVoltage hBase ⟨0, -2048⟩).1.CntPhC ∧
      (PWMC_SetPhaseVoltage hBase ⟨0, -2048⟩).1.CntPhC
        ≤ hBase.PWMperiod)) := by
  refine ⟨by decide, by decide, by decide, ?_⟩
  exact setPhaseVoltage_counters_bounded hBase ⟨0, -2048⟩ (by decide)
    (by decide) (by decide) (by decide) (by decide) (by decide)
    (by decide) (by decide) (by decide)

end FOC
